import Mathlib

/-!
Shallow embedding of the media ingestion pipeline of the imgshow repository
(`ImageProcessor` in the TypeScript source) together with proofs about it.

Modelling conventions:
* Byte buffers are `List Nat` (each entry a byte value).
* The external codec (the `sharp` library) is the only genuinely external,
  fallible dependency besides blob storage.  Every `sharp(x)` invocation is
  modelled by an oracle function `meta : Buf → Except Unit Raster`; the
  pipeline is quantified over it.  Encoded outputs of the model pipeline are
  symbolic `Buf` values recording which raster was encoded and at which
  quality, mirroring what the source's `sharp` call chains produce.
* Blob storage (`@vercel/blob`'s `put`) is an oracle
  `store : String → Buf → String → Except Unit String` returning the URL.
* `uuidv4()`, `Date.now()` and `toISOString()` are nondeterministic inputs of
  one invocation and are passed in as the parameters `fileId`, `nowMs`,
  `nowIso`.
* Thrown JS exceptions become `Except PipelineError` results, one error kind
  per throw site, following the spec's taxonomy.
* The pipeline also produces an event trace (`List Event`) recording
  validation success, decode attempts and publish calls, used to state
  ordering properties.
-/

namespace Imgshow

/-- Error kinds of the pipeline, one per throw site of the source. -/
inductive PipelineError where
  | unsupportedFormat
  | payloadTooLarge
  | typeMismatch
  | decodeError
  | publishError
deriving DecidableEq

/-- Decoded raster plus the format metadata fields the pipeline reads from
`sharp(x).metadata()` (width, height, pages, density, duration, exif, size).
Optional fields model `undefined` in the library's answer; a missing
width/height is modelled as the oracle answering `0` (the source applies
`?? 0` style defaulting via `const { width = 0, height = 0 }`). -/
structure Raster where
  width : Nat := 0
  height : Nat := 0
  pixels : List Nat := []
  pages : Option Nat := none
  density : Option Nat := none
  duration : Option Nat := none
  exif : Option (List Nat) := none
  size : Option Nat := none
deriving DecidableEq

/-- A byte buffer as the pipeline observes it: either the raw uploaded bytes,
or the symbolic output of one of the model's encode chains
(`.webp({quality}).toBuffer()` or a plain `.toBuffer()` in the input
format). -/
inductive Buf where
  | raw (bytes : List Nat)
  | webp (r : Raster) (quality : Nat)
  | native (r : Raster)
deriving DecidableEq

/-- Byte length of a buffer.  For encoded buffers the exact length is
encoder-dependent; the model fixes a simple deterministic value.  The
pipeline copies this number into the thumbnail record but never branches
on it. -/
def Buf.len : Buf → Nat
  | .raw b => b.length
  | .webp r q => r.width * r.height * q
  | .native r => r.width * r.height * 4

/-- The uploaded `File`: declared name, declared MIME type, size and bytes. -/
structure FileData where
  name : String
  type : String
  size : Nat
  bytes : List Nat
deriving DecidableEq

/-- `UploadOptions` from `types/index.ts`; all fields optional. -/
structure UploadOptions where
  auto_delete_minutes : Option Nat := none
  is_public : Option Bool := none
  password : Option String := none
  album_id : Option String := none
  tags : Option (List String) := none
  quality : Option Nat := none
  max_width : Option Nat := none
  max_height : Option Nat := none
  convert_to_webp : Option Bool := none
deriving DecidableEq

/-- `ImageMetadata` from `types/index.ts`; all fields optional, `{}` (all
`none`) is the empty metadata bag. -/
structure ImageMetadata where
  exif : Option (List Nat) := none
  color_palette : Option (List String) := none
  dominant_color : Option String := none
  is_animated : Option Bool := none
  duration : Option Nat := none
  quality_score : Option Int := none
deriving DecidableEq

/-- The `Image` record from `types/index.ts` as assembled by `processImage`.
`auto_delete_at` is the absolute expiry instant in milliseconds (the source
stores it as an ISO string of exactly this instant). -/
structure ImageRec where
  id : String
  user_id : String
  filename : String
  original_name : String
  mime_type : String
  size : Nat
  width : Nat
  height : Nat
  url : String
  thumbnail_url : Option String
  is_public : Bool
  password : Option String
  album_id : Option String
  auto_delete_at : Option Nat
  created_at : String
  updated_at : String
  view_count : Nat
  download_count : Nat
  tags : List String
  metadata : ImageMetadata
deriving DecidableEq

/-- Events recorded while the pipeline runs: successful validation, an
attempt to decode a buffer with the codec, and a publish call to blob
storage (recorded with the arguments of the call, whether or not the call
succeeds). -/
inductive Event where
  | validated
  | decodeAttempt
  | publish (filename : String) (buffer : Buf) (contentType : String)
deriving DecidableEq

/-- `MAX_FILE_SIZE = 32 * 1024 * 1024` from the source. -/
def MAX_FILE_SIZE : Nat := 32 * 1024 * 1024

/-- `SUPPORTED_FORMATS` from the source. -/
def SUPPORTED_FORMATS : List String :=
  ["jpg", "jpeg", "png", "gif", "webp", "heic", "avif", "pdf"]

/-- The `QUALITY_LEVELS` constant of the source. -/
structure QualityLevels where
  low : Nat
  medium : Nat
  high : Nat
  original : Nat

def QUALITY_LEVELS : QualityLevels :=
  { low := 60, medium := 80, high := 90, original := 100 }

/- ---------------------------------------------------------------------
String helpers.  JS string primitives are modelled over `List Char` so that
they compute in the kernel.
--------------------------------------------------------------------- -/

/-- JS `String.prototype.split` with a one-character separator. -/
def splitOnChar (sep : Char) : List Char → List (List Char)
  | [] => [[]]
  | c :: cs =>
    match splitOnChar sep cs with
    | [] => [[c]]
    | h :: t => if c = sep then [] :: h :: t else (c :: h) :: t

/-- JS `String.prototype.toLowerCase`, restricted to the ASCII mapping of
`Char.toLower` (filenames and extensions in the claims are ASCII). -/
def lowerStr (s : String) : String :=
  String.mk (s.data.map Char.toLower)

/-- JS `String.prototype.startsWith` over char lists. -/
def startsWithChars : List Char → List Char → Bool
  | _, [] => true
  | [], _ :: _ => false
  | c :: cs, p :: ps => c = p && startsWithChars cs ps

/-- `getFileExtension`: `filename.split('.').pop()?.toLowerCase() || ''`.
`split` never yields an empty array, so `pop` is the last chunk; the
`|| ''` only ever triggers when that chunk is already the empty string, so
it is the identity here. -/
def getFileExtension (filename : String) : String :=
  lowerStr (String.mk ((splitOnChar '.' filename.data).getLastD []))

/-- `validateFile`: size ceiling first, then the extension allow-list, then
the MIME check.  The source lowercases the (already lowercased) extension a
second time. -/
def validateFile (file : FileData) : Except PipelineError Unit :=
  if file.size > MAX_FILE_SIZE then .error .payloadTooLarge
  else if lowerStr (getFileExtension file.name) ∉ SUPPORTED_FORMATS then
    .error .unsupportedFormat
  else if startsWithChars file.type.data "image/".data = false ∧
      file.type ≠ "application/pdf" then
    .error .typeMismatch
  else .ok ()

/-- `getQualityLevel`.  JS `if (!quality)` is taken both when the option is
absent and when it is `0`, because `0` is falsy. -/
def getQualityLevel (quality : Option Nat) : Nat :=
  match quality with
  | none => QUALITY_LEVELS.medium
  | some q =>
    if q = 0 then QUALITY_LEVELS.medium
    else if q ≤ 30 then QUALITY_LEVELS.low
    else if q ≤ 70 then QUALITY_LEVELS.medium
    else if q ≤ 90 then QUALITY_LEVELS.high
    else QUALITY_LEVELS.original

/- ---------------------------------------------------------------------
Raster resampling.  These model the documented behaviour of the `sharp`
resize calls the source makes; the claims depend on the produced dimensions
and on which raster is resampled, not on the interpolation.
--------------------------------------------------------------------- -/

/-- Scale `x` by the fraction `n / d`, rounding half up. -/
def scaleDim (x n d : Nat) : Nat :=
  if d = 0 then x else (2 * x * n + d) / (2 * d)

/-- Target dimensions of `resize({fit:'inside', withoutEnlargement:true})`
with optional width/height bounds: the scale is the smallest of the bound
ratios, capped at 1 so the image is never enlarged. -/
def fitInsideDims (w h : Nat) (maxW maxH : Option Nat) : Nat × Nat :=
  if w = 0 ∨ h = 0 then (w, h)
  else
    let p₁ : Nat × Nat := match maxW with | some m => (m, w) | none => (1, 1)
    let p₂ : Nat × Nat := match maxH with | some m => (m, h) | none => (1, 1)
    let p : Nat × Nat := if p₁.1 * p₂.2 ≤ p₂.1 * p₁.2 then p₁ else p₂
    let p : Nat × Nat := if p.2 ≤ p.1 then (1, 1) else p
    (max 1 (scaleDim w p.1 p.2), max 1 (scaleDim h p.1 p.2))

/-- RGBA quadruple of pixel `(x, y)` of a raster, zero outside bounds. -/
def pixelAt (r : Raster) (x y : Nat) : List Nat :=
  let i := 4 * (y * r.width + x)
  [r.pixels.getD i 0, r.pixels.getD (i + 1) 0,
   r.pixels.getD (i + 2) 0, r.pixels.getD (i + 3) 0]

/-- Pixel data of a containment resize to `nw × nh` (nearest neighbour). -/
def insidePixels (r : Raster) (nw nh : Nat) : List Nat :=
  if nw = 0 ∨ nh = 0 then []
  else
    (List.range (nw * nh)).flatMap fun i =>
      let x := i % nw
      let y := i / nw
      pixelAt r (min (r.width - 1) (x * r.width / nw))
        (min (r.height - 1) (y * r.height / nh))

/-- Pixel data of `resize(tw, th, {fit:'cover', position:'center'})`: scale
by the larger bound ratio, then crop the overflowing axis symmetrically
(nearest neighbour). -/
def coverPixels (r : Raster) (tw th : Nat) : List Nat :=
  if r.width = 0 ∨ r.height = 0 ∨ tw = 0 ∨ th = 0 then
    List.replicate (4 * tw * th) 0
  else
    let p : Nat × Nat :=
      if th * r.width ≤ tw * r.height then (tw, r.width) else (th, r.height)
    let sw := max tw (scaleDim r.width p.1 p.2)
    let sh := max th (scaleDim r.height p.1 p.2)
    let ox := (sw - tw) / 2
    let oy := (sh - th) / 2
    (List.range (tw * th)).flatMap fun i =>
      let x := i % tw
      let y := i / tw
      pixelAt r (min (r.width - 1) ((x + ox) * r.width / sw))
        (min (r.height - 1) ((y + oy) * r.height / sh))

/-- The raster produced by a center-anchored cover crop to `tw × th`. -/
def coverCrop (r : Raster) (tw th : Nat) : Raster :=
  { width := tw, height := th, pixels := coverPixels r tw th }

/- ---------------------------------------------------------------------
Color analysis (`extractColorPalette`, `getDominantColor`,
`calculateQualityScore`).
--------------------------------------------------------------------- -/

/-- Lowercase hex digit for `n < 16`, as JS `toString(16)` produces. -/
def hexDigit (n : Nat) : Char :=
  if n < 10 then Char.ofNat ('0'.toNat + n) else Char.ofNat ('a'.toNat + n - 10)

/-- JS `n.toString(16)` for natural `n`: most significant digit first, no
leading zeros (single `'0'` for zero). -/
def toHexList (n : Nat) : List Char :=
  if h : n < 16 then [hexDigit n]
  else toHexList (n / 16) ++ [hexDigit (n % 16)]
decreasing_by
  exact Nat.div_lt_self (by omega) (by omega)

/-- JS `.padStart(2, '0')`. -/
def pad2 (l : List Char) : List Char :=
  List.replicate (2 - l.length) '0' ++ l

/-- The color key built in the sampling loop:
`'#' + r.toString(16).padStart(2,'0') + …`. -/
def toHexColor (r g b : Nat) : String :=
  String.mk ('#' :: (pad2 (toHexList r) ++ pad2 (toHexList g) ++ pad2 (toHexList b)))

/-- Byte offsets visited by the sampling loop
`for (i = 0; i < len; i += 4 * 10)`. -/
def samplePoints (len : Nat) : List Nat :=
  (List.range ((len + 39) / 40)).map (· * 40)

/-- One `colors.set(color, (colors.get(color) || 0) + 1)` step on the
insertion-ordered map (JS `Map` updates an existing key in place and
appends a new key at the end). -/
def bump (m : List (String × Nat)) (c : String) : List (String × Nat) :=
  match m with
  | [] => [(c, 1)]
  | (k, v) :: t => if k = c then (k, v + 1) :: t else (k, v) :: bump t c

/-- Insertion step of a stable descending sort by count: a later element
passes every earlier element with a count ≥ its own.  Folding this over the
map entries models JS `Array.prototype.sort` (stable) with the comparator
`(a, b) => b[1] - a[1]`. -/
def insDesc (x : String × Nat) : List (String × Nat) → List (String × Nat)
  | [] => [x]
  | h :: t => if h.2 < x.2 then x :: h :: t else h :: insDesc x t

/-- Stable sort by descending count (see `insDesc`). -/
def stableSortDesc (l : List (String × Nat)) : List (String × Nat) :=
  l.foldl (fun acc x => insDesc x acc) []

/-- `extractColorPalette`: sample every 10th RGBA pixel, skip pixels with
alpha below 128, bucket by exact hex value, then return the top-10 keys by
descending frequency.  The `width`/`height` parameters are unused, exactly
as in the source. -/
def extractColorPalette (data : List Nat) (width height : Nat) : List String :=
  let colors := (samplePoints data.length).foldl
    (fun m i =>
      if data.getD (i + 3) 0 < 128 then m
      else bump m (toHexColor (data.getD i 0) (data.getD (i + 1) 0) (data.getD (i + 2) 0)))
    []
  ((stableSortDesc colors).take 10).map Prod.fst

/-- `getDominantColor`: `colorPalette[0] || '#000000'` (JS `||` also takes
the fallback for an empty first entry). -/
def getDominantColor (colorPalette : List String) : String :=
  let c := colorPalette.headD ""
  if c = "" then "#000000" else c

/-- `calculateQualityScore`.  The `metadata.density &&` / `metadata.size &&`
guards skip the penalty when the field is absent or `0` (falsy). -/
def calculateQualityScore (metadata : Raster) : Int :=
  let s₁ : Int := 100 - (if metadata.width < 800 ∨ metadata.height < 600 then 20 else 0)
  let s₂ : Int := s₁ -
    (if 0 < metadata.density.getD 0 ∧ metadata.density.getD 0 < 72 then 15 else 0)
  let s₃ : Int := s₂ -
    (if 0 < metadata.size.getD 0 ∧ metadata.size.getD 0 < 50000 then 10 else 0)
  max 0 (min 100 s₃)

/- ---------------------------------------------------------------------
The pipeline itself.  `meta` is the codec oracle (one call per `sharp(x)`
materialisation, deterministic within a run), `store` the blob-storage
oracle.
--------------------------------------------------------------------- -/

/-- The thumbnail buffer built by `createThumbnail`:
`sharp(buffer).resize(300, 300, {fit:'cover', position:'center'}).webp({quality: 80}).toBuffer()`,
always from the raster of the buffer it is given. -/
def thumbBufOf (r : Raster) : Buf :=
  Buf.webp (coverCrop r 300 300) 80

/-- The raster after the optional containment resize of `processImageFile`
(lines applying `resize({fit:'inside', withoutEnlargement:true, …})` only
when at least one bound is present). -/
def resizedOf (info : Raster) (options : UploadOptions) : Raster :=
  if options.max_width.isSome ∨ options.max_height.isSome then
    let d := fitInsideDims info.width info.height options.max_width options.max_height
    { info with width := d.1, height := d.2, pixels := insidePixels info d.1 d.2 }
  else info

/-- The primary buffer produced by `processImageFile`'s encode chain: WebP at
the resolved quality tier unless `convert_to_webp === false`, in which case
a plain re-encode in the input format.  (The source applies `.webp` a second
time when `quality` is set, with the same resolved value, which only
overwrites the encoder setting with itself.) -/
def primaryBuf (info : Raster) (options : UploadOptions) : Buf :=
  if options.convert_to_webp ≠ some false then
    Buf.webp (resizedOf info options) (getQualityLevel options.quality)
  else Buf.native (resizedOf info options)

/-- `createThumbnail`: decode the buffer, cover-crop to 300×300, encode as
WebP at quality 80, then read the thumbnail's own metadata back
(`width || 300`, `height || 300`). -/
def createThumbnail (meta : Buf → Except Unit Raster) (buffer : Buf) :
    Except PipelineError (Buf × Nat × Nat) × List Event :=
  match meta buffer with
  | .error _ => (.error .decodeError, [.decodeAttempt])
  | .ok r =>
    let tBuf := thumbBufOf r
    match meta tBuf with
    | .error _ => (.error .decodeError, [.decodeAttempt, .decodeAttempt])
    | .ok m =>
      (.ok (tBuf, (if m.width = 0 then 300 else m.width),
        (if m.height = 0 then 300 else m.height)),
       [.decodeAttempt, .decodeAttempt])

/-- Return type of `processImageFile` (the source's inline object type). -/
structure ProcessedImage where
  buffer : Buf
  width : Nat
  height : Nat
  thumbnail : Option Buf
  thumbnailWidth : Nat
  thumbnailHeight : Nat
deriving DecidableEq

/-- `processImageFile`: read the original metadata (`width`/`height`
returned to the caller are these pre-transform values), build the
resize/encode chain for the primary buffer, then create the thumbnail from
the original buffer. -/
def processImageFile (meta : Buf → Except Unit Raster) (file : FileData)
    (options : UploadOptions) :
    Except PipelineError ProcessedImage × List Event :=
  match meta (.raw file.bytes) with
  | .error _ => (.error .decodeError, [.decodeAttempt])
  | .ok info =>
    match createThumbnail meta (.raw file.bytes) with
    | (.error e, tr) => (.error e, .decodeAttempt :: tr)
    | (.ok (tb, tw, th), tr) =>
      (.ok { buffer := primaryBuf info options, width := info.width,
             height := info.height, thumbnail := some tb,
             thumbnailWidth := tw, thumbnailHeight := th },
       .decodeAttempt :: tr)

/-- `uploadToBlob`: one `put(filename, buffer, {access:'public', contentType})`
call; a storage failure is a `PublishError`.  The publish event records the
arguments of the attempted call. -/
def uploadToBlob (store : String → Buf → String → Except Unit String)
    (buffer : Buf) (filename contentType : String) :
    Except PipelineError String × List Event :=
  (match store filename buffer contentType with
   | .error _ => .error .publishError
   | .ok url => .ok url,
   [.publish filename buffer contentType])

/-- `extractMetadata`: the whole body runs inside `try { … } catch` and any
failure collapses to the empty metadata bag `{}`.  In the model the failure
point is the codec oracle on the processed buffer (both `sharp(buffer)`
calls of the body hit the same buffer, deterministically).  The working
raster for the palette is a 150×150 resample (`resize(150, 150)`, whose
default fit is cover).  The `file` parameter is unused, as in the source. -/
def extractMetadata (meta : Buf → Except Unit Raster) (buffer : Buf)
    (file : FileData) : ImageMetadata × List Event :=
  match meta buffer with
  | .error _ => ({}, [.decodeAttempt])
  | .ok m =>
    let data := coverPixels m 150 150
    let colorPalette := extractColorPalette data 150 150
    ({ exif := m.exif,
       color_palette := some colorPalette,
       dominant_color := some (getDominantColor colorPalette),
       is_animated := some (decide (m.pages.getD 0 > 1)),
       duration := m.duration,
       quality_score := some (calculateQualityScore m) },
     [.decodeAttempt, .decodeAttempt])

/-- The `Image` record literal assembled by `processImage` for the primary
image.  `width`/`height` are the values `processImageFile` returned (the
pre-transform raster dimensions) and `size` is `file.size`.
JS falsy quirk: `auto_delete_minutes: 0` behaves like absent. -/
def mkImage (fileId : String) (nowMs : Nat) (nowIso : String) (file : FileData)
    (options : UploadOptions) (filename : String) (imageUrl : String)
    (thumbnailUrl : Option String) (p : ProcessedImage)
    (metadata : ImageMetadata) : ImageRec :=
  { id := fileId, user_id := "", filename := filename,
    original_name := file.name, mime_type := file.type, size := file.size,
    width := p.width, height := p.height, url := imageUrl,
    thumbnail_url := thumbnailUrl,
    is_public := options.is_public.getD true,
    password := options.password, album_id := options.album_id,
    auto_delete_at :=
      match options.auto_delete_minutes with
      | some m => if m = 0 then none else some (nowMs + m * 60 * 1000)
      | none => none,
    created_at := nowIso, updated_at := nowIso,
    view_count := 0, download_count := 0,
    tags := options.tags.getD [], metadata := metadata }

/-- The thumbnail `Image` record literal assembled by `processImage`. -/
def mkThumb (fileId : String) (nowIso : String) (file : FileData)
    (options : UploadOptions) (thumbnailFilename : String) (thumbUrl : String)
    (tb : Buf) (p : ProcessedImage) : ImageRec :=
  { id := fileId ++ "_thumb", user_id := "", filename := thumbnailFilename,
    original_name := file.name ++ "_thumbnail", mime_type := "image/webp",
    size := tb.len, width := p.thumbnailWidth, height := p.thumbnailHeight,
    url := thumbUrl, thumbnail_url := none,
    is_public := options.is_public.getD true,
    password := none, album_id := none, auto_delete_at := none,
    created_at := nowIso, updated_at := nowIso,
    view_count := 0, download_count := 0, tags := [], metadata := {} }

/-- `processImage`, the single exposed operation: validate, derive the
filenames from the generated id and the original extension, process, publish
the primary buffer under the declared MIME type, publish the thumbnail as
`image/webp`, extract metadata, and assemble the records.  The branch for an
absent thumbnail mirrors the source's `processedImage.thumbnail ? … :
undefined`, though `createThumbnail` always produces one. -/
def processImage (meta : Buf → Except Unit Raster)
    (store : String → Buf → String → Except Unit String)
    (fileId : String) (nowMs : Nat) (nowIso : String)
    (file : FileData) (options : UploadOptions) :
    Except PipelineError (ImageRec × Option ImageRec) × List Event :=
  match validateFile file with
  | .error e => (.error e, [])
  | .ok _ =>
    let filename := fileId ++ "." ++ getFileExtension file.name
    let thumbnailFilename := fileId ++ "_thumb.webp"
    match processImageFile meta file options with
    | (.error e, tr) => (.error e, .validated :: tr)
    | (.ok p, tr) =>
      match uploadToBlob store p.buffer filename file.type with
      | (.error e, tru) => (.error e, .validated :: (tr ++ tru))
      | (.ok imageUrl, tru) =>
        match p.thumbnail with
        | some tb =>
          match uploadToBlob store tb thumbnailFilename "image/webp" with
          | (.error e, trv) => (.error e, .validated :: (tr ++ tru ++ trv))
          | (.ok thumbUrl, trv) =>
            let md := extractMetadata meta p.buffer file
            (.ok (mkImage fileId nowMs nowIso file options filename imageUrl
                    (some thumbUrl) p md.1,
                  some (mkThumb fileId nowIso file options thumbnailFilename
                    thumbUrl tb p)),
             .validated :: (tr ++ tru ++ trv ++ md.2))
        | none =>
          let md := extractMetadata meta p.buffer file
          (.ok (mkImage fileId nowMs nowIso file options filename imageUrl
                  none p md.1, none),
           .validated :: (tr ++ tru ++ md.2))

/-- Publish calls of a trace, in order, with their arguments. -/
def publishes (tr : List Event) : List (String × Buf × String) :=
  tr.filterMap fun e =>
    match e with
    | .publish n b c => some (n, b, c)
    | _ => none

/-- Whether an `Except` result is a success. -/
def okB {ε α : Type} : Except ε α → Bool
  | .ok _ => true
  | .error _ => false

/-- Width of the raster an encoded buffer decodes to (none for raw bytes). -/
def bufWidth? : Buf → Option Nat
  | .raw _ => none
  | .webp r _ => some r.width
  | .native r => some r.width

/-- The `ProcessedImage` value `processImageFile` produces on success, given
the decoded original raster `r` and the raster `m'` the codec reports for
the encoded thumbnail. -/
def pOf (r m' : Raster) (options : UploadOptions) : ProcessedImage :=
  { buffer := primaryBuf r options, width := r.width, height := r.height,
    thumbnail := some (thumbBufOf r),
    thumbnailWidth := if m'.width = 0 then 300 else m'.width,
    thumbnailHeight := if m'.height = 0 then 300 else m'.height }

/-- Number of occurrences of a color in a list (sample frequency). -/
def occ (c : String) : List String → Nat
  | [] => 0
  | x :: xs => (if x = c then 1 else 0) + occ c xs

/-- Index of the first occurrence of a color (length if absent). -/
def firstIdx (c : String) : List String → Nat
  | [] => 0
  | x :: xs => if x = c then 0 else firstIdx c xs + 1

/-- Hex colors of the pixels the sampling loop of `extractColorPalette`
visits and keeps (alpha ≥ 128), in visit order. -/
def sampleColors (data : List Nat) : List String :=
  (samplePoints data.length).filterMap fun i =>
    if data.getD (i + 3) 0 < 128 then none
    else some (toHexColor (data.getD i 0) (data.getD (i + 1) 0) (data.getD (i + 2) 0))

/-- A `'#'`-prefixed six-hex-digit string. -/
def hexColorSpec (s : String) : Prop :=
  s.data.length = 7 ∧ s.data.head? = some '#' ∧
    ∀ c ∈ s.data.drop 1, ('0' ≤ c ∧ c ≤ '9') ∨ ('a' ≤ c ∧ c ≤ 'f')

/-- Palette ordering relative to the sampled colors `vis`: strictly more
frequent first, ties broken by first-encountered order. -/
def paletteLE (vis : List String) (a b : String) : Prop :=
  occ b vis < occ a vis ∨ (occ a vis = occ b vis ∧ firstIdx a vis < firstIdx b vis)

/-- Palette ordering on map entries: strictly larger count first, ties in
first-encountered order. -/
def pairRel (vis : List String) (x y : String × Nat) : Prop :=
  y.2 < x.2 ∨ (x.2 = y.2 ∧ firstIdx x.1 vis < firstIdx y.1 vis)

/-- Lookup of a color's count in the frequency map. -/
def lkp (m : List (String × Nat)) (c : String) : Nat :=
  match m with
  | [] => 0
  | (k, v) :: t => if k = c then v else lkp t c

/-- An all-default record used only to state concrete instantiations. -/
def dummyRec : ImageRec :=
  { id := "", user_id := "", filename := "", original_name := "",
    mime_type := "", size := 0, width := 0, height := 0, url := "",
    thumbnail_url := none, is_public := true, password := none,
    album_id := none, auto_delete_at := none, created_at := "",
    updated_at := "", view_count := 0, download_count := 0, tags := [],
    metadata := {} }

/-- First component of a successful pipeline result. -/
def okFst (x : Except PipelineError (ImageRec × Option ImageRec) × List Event) :
    ImageRec :=
  (x.1.toOption.map Prod.fst).getD dummyRec

/-- Second component of a successful pipeline result. -/
def okSnd (x : Except PipelineError (ImageRec × Option ImageRec) × List Event) :
    Option ImageRec :=
  (x.1.toOption.map Prod.snd).getD none

/- ---------------------------------------------------------------------
Concrete fixtures used by counterexamples and witnesses.
--------------------------------------------------------------------- -/

/-- A 1000×500 test raster. -/
def wRaster : Raster := { width := 1000, height := 500 }

/-- A well-behaved codec oracle: decodes the raw upload to `wRaster` and
round-trips the dimensions of encoded buffers. -/
def wMeta : Buf → Except Unit Raster
  | .raw _ => .ok wRaster
  | .webp r _ => .ok r
  | .native r => .ok r

/-- A blob store that always succeeds. -/
def wStore : String → Buf → String → Except Unit String :=
  fun n _ _ => .ok ("https://blob/" ++ n)

/-- A blob store whose thumbnail upload fails. -/
def wStoreThumbFail : String → Buf → String → Except Unit String :=
  fun n _ _ => if n = "fid_thumb.webp" then .error () else .ok ("https://blob/" ++ n)

/-- A small upload. -/
def wFile : FileData := { name := "a.PNG", type := "image/png", size := 5, bytes := [1] }

/-- Options requesting a width-bounded resize. -/
def c1opts : UploadOptions := { max_width := some 100 }

/-- The run used against claim C1. -/
def c1run := processImage wMeta wStore "fid" 0 "t0" wFile c1opts

/-- Options requesting a low quality tier (so the primary encode quality 60
differs from the thumbnail's 80). -/
def c7opts : UploadOptions := { quality := some 20 }

/-- The fault-free run used for claim C7. -/
def c7run := processImage wMeta wStore "fid" 0 "t0" wFile c7opts

/-- The C7 oracle with a fault injected exactly at the processed buffer. -/
def c7meta : Buf → Except Unit Raster :=
  fun b => if b = primaryBuf wRaster c7opts then .error () else wMeta b

/-- The run used for the remaining success-path witnesses. -/
def wRun := processImage wMeta wStore "fid" 0 "t0" wFile {}

/- ---------------------------------------------------------------------
General lemmas.
--------------------------------------------------------------------- -/

theorem toNat_ofNat_alpha : ∀ m, m < 123 → 97 ≤ m → (Char.ofNat m).toNat = m := by
  decide

theorem toLower_toLower (c : Char) : c.toLower.toLower = c.toLower := by
  simp only [Char.toLower]
  by_cases h : c.toNat ≥ 65 ∧ c.toNat ≤ 90
  · rw [if_pos h]
    have ht : (Char.ofNat (c.toNat + 32)).toNat = c.toNat + 32 :=
      toNat_ofNat_alpha _ (by omega) (by omega)
    rw [if_neg (by rw [ht]; omega)]
  · rw [if_neg h, if_neg h]

theorem lowerStr_idem (s : String) : lowerStr (lowerStr s) = lowerStr s := by
  unfold lowerStr
  simp only [List.map_map]
  congr 1
  exact List.map_congr_left fun c _ => toLower_toLower c

theorem lowerStr_getFileExtension (s : String) :
    lowerStr (getFileExtension s) = getFileExtension s := by
  unfold getFileExtension
  exact lowerStr_idem _

/- ---------------------------------------------------------------------
Claim C2.
--------------------------------------------------------------------- -/

/-- C2 counterexample: an input whose extension (`txt`) is outside the
allow-list but whose size exceeds the cap is rejected as
`PayloadTooLarge`, not `UnsupportedFormat` — the size check runs first. -/
theorem C2_counterexample :
    processImage wMeta wStore "fid" 0 "t0"
      { name := "a.txt", type := "text/plain", size := 32 * 1024 * 1024 + 1, bytes := [] }
      {} = (.error .payloadTooLarge, []) ∧
    lowerStr (getFileExtension "a.txt") ∉ SUPPORTED_FORMATS ∧
    PipelineError.payloadTooLarge ≠ PipelineError.unsupportedFormat := by
  refine ⟨rfl, by decide, by decide⟩

/-- C2 (amended): for every input of size at most 32 MiB whose extension is
outside the allow-list, regardless of the declared MIME type, `process`
returns `UnsupportedFormat` (with an empty trace). -/
theorem C2_amended (meta : Buf → Except Unit Raster)
    (store : String → Buf → String → Except Unit String)
    (fileId : String) (nowMs : Nat) (nowIso : String) (file : FileData)
    (options : UploadOptions)
    (hsize : file.size ≤ MAX_FILE_SIZE)
    (hext : getFileExtension file.name ∉ SUPPORTED_FORMATS) :
    processImage meta store fileId nowMs nowIso file options =
      (.error .unsupportedFormat, []) := by
  have hv : validateFile file = .error .unsupportedFormat := by
    unfold validateFile
    rw [if_neg (by omega), if_pos (by rw [lowerStr_getFileExtension]; exact hext)]
  unfold processImage
  rw [hv]

/-- C2 witness: a small `text/plain` file named `a.txt`. -/
theorem C2_witness :
    processImage wMeta wStore "fid" 0 "t0"
      { name := "b.txt", type := "image/png", size := 3, bytes := [] } {} =
      (.error .unsupportedFormat, []) :=
  C2_amended wMeta wStore "fid" 0 "t0" _ {} (by decide) (by decide)

/- ---------------------------------------------------------------------
Claim C3.
--------------------------------------------------------------------- -/

/-- C3 counterexample: the preference `q = 0` lies in 0–100 and `0 ≤ 30`,
but the resolved tier is 80, not 60 — JS `!quality` treats `0` as absent. -/
theorem C3_counterexample :
    getQualityLevel (some 0) = 80 ∧ (0 : Nat) ≤ 30 ∧ (80 : Nat) ≠ 60 := by
  refine ⟨rfl, by decide, by decide⟩

/-- C3 (amended): for every quality preference `q` with `1 ≤ q ≤ 100` the
resolved tier is 60 / 80 / 90 / 100 by the stated thresholds, and both an
absent quality option and `q = 0` resolve to the medium tier 80. -/
theorem C3_amended (q : Nat) (h₁ : 1 ≤ q) (h₂ : q ≤ 100) :
    getQualityLevel (some q) =
      (if q ≤ 30 then 60 else if q ≤ 70 then 80 else if q ≤ 90 then 90 else 100) ∧
    getQualityLevel none = 80 ∧ getQualityLevel (some 0) = 80 := by
  refine ⟨?_, rfl, rfl⟩
  simp only [getQualityLevel, QUALITY_LEVELS]
  rw [if_neg (by omega : ¬ q = 0)]

/-- C3 witness: `q = 25` resolves to tier 60. -/
theorem C3_witness :
    getQualityLevel (some 25) =
      (if 25 ≤ 30 then 60 else if 25 ≤ 70 then 80 else if 25 ≤ 90 then 90 else 100) ∧
    getQualityLevel none = 80 ∧ getQualityLevel (some 0) = 80 :=
  C3_amended 25 (by decide) (by decide)

/- ---------------------------------------------------------------------
Claim C8.
--------------------------------------------------------------------- -/

theorem processImage_trace_shape (meta : Buf → Except Unit Raster)
    (store : String → Buf → String → Except Unit String)
    (fileId : String) (nowMs : Nat) (nowIso : String) (file : FileData)
    (options : UploadOptions) :
    (processImage meta store fileId nowMs nowIso file options).2 = [] ∨
    (processImage meta store fileId nowMs nowIso file options).2.head? =
      some .validated := by
  unfold processImage
  split
  · exact Or.inl rfl
  · dsimp only
    repeat' split
    all_goals exact Or.inr rfl

/-- C8: an input larger than 32 MiB is rejected as `PayloadTooLarge` with an
empty event trace (in particular no decode attempt), and in every run a
decode attempt can only appear after the validation-success event, which
heads the trace. -/
theorem C8_size_limit :
    (∀ (meta : Buf → Except Unit Raster)
       (store : String → Buf → String → Except Unit String)
       (fileId : String) (nowMs : Nat) (nowIso : String) (file : FileData)
       (options : UploadOptions), file.size > MAX_FILE_SIZE →
       processImage meta store fileId nowMs nowIso file options =
         (.error .payloadTooLarge, [])) ∧
    (∀ (meta : Buf → Except Unit Raster)
       (store : String → Buf → String → Except Unit String)
       (fileId : String) (nowMs : Nat) (nowIso : String) (file : FileData)
       (options : UploadOptions),
       Event.decodeAttempt ∈ (processImage meta store fileId nowMs nowIso file options).2 →
       (processImage meta store fileId nowMs nowIso file options).2.head? =
         some .validated) := by
  constructor
  · intro meta store fileId nowMs nowIso file options h
    have hv : validateFile file = .error .payloadTooLarge := by
      unfold validateFile
      rw [if_pos h]
    unfold processImage
    rw [hv]
  · intro meta store fileId nowMs nowIso file options hmem
    rcases processImage_trace_shape meta store fileId nowMs nowIso file options with h | h
    · rw [h] at hmem
      cases hmem
    · exact h

/-- C8 witness: a 32 MiB + 1 byte upload is rejected with an empty trace,
and a successful run's trace is headed by the validation event. -/
theorem C8_witness :
    processImage wMeta wStore "fid" 0 "t0"
      { name := "big.png", type := "image/png", size := 32 * 1024 * 1024 + 1, bytes := [] }
      {} = (.error .payloadTooLarge, []) ∧
    (processImage wMeta wStore "fid" 0 "t0" wFile {}).2.head? = some .validated :=
  ⟨C8_size_limit.1 _ _ _ _ _ _ _ (by decide),
   C8_size_limit.2 wMeta wStore "fid" 0 "t0" wFile {} (by decide)⟩

/- ---------------------------------------------------------------------
Claim C9.
--------------------------------------------------------------------- -/

theorem splitOnChar_cons (sep c : Char) (cs : List Char) :
    splitOnChar sep (c :: cs) =
      match splitOnChar sep cs with
      | [] => [[c]]
      | h :: t => if c = sep then [] :: h :: t else (c :: h) :: t := rfl

theorem splitOnChar_ne_nil (sep : Char) (l : List Char) : splitOnChar sep l ≠ [] := by
  cases l with
  | nil => simp [splitOnChar]
  | cons c cs =>
    rw [splitOnChar_cons]
    cases h : splitOnChar sep cs with
    | nil => simp
    | cons a t =>
      simp only [h]
      split <;> simp

theorem splitOnChar_append (sep : Char) (l₁ l₂ : List Char) :
    splitOnChar sep (l₁ ++ sep :: l₂) = splitOnChar sep l₁ ++ splitOnChar sep l₂ := by
  induction l₁ with
  | nil =>
    rw [List.nil_append, splitOnChar_cons]
    cases h : splitOnChar sep l₂ with
    | nil => exact absurd h (splitOnChar_ne_nil sep l₂)
    | cons a t => simp [h, splitOnChar]
  | cons c cs ih =>
    rw [List.cons_append, splitOnChar_cons, ih, splitOnChar_cons]
    cases h : splitOnChar sep cs with
    | nil => exact absurd h (splitOnChar_ne_nil sep cs)
    | cons a t =>
      simp only [h, List.cons_append]
      split <;> simp

theorem splitOnChar_of_not_mem (sep : Char) (l : List Char) (h : sep ∉ l) :
    splitOnChar sep l = [l] := by
  induction l with
  | nil => rfl
  | cons c cs ih =>
    simp only [List.mem_cons, not_or] at h
    rw [splitOnChar_cons, ih h.2]
    simp only []
    rw [if_neg (Ne.symm h.1)]

theorem getLastD_of_ne_nil {α : Type} (B : List α) (d d' : α) (h : B ≠ []) :
    B.getLastD d = B.getLastD d' := by
  cases B with
  | nil => exact absurd rfl h
  | cons b l => rw [List.getLastD_cons, List.getLastD_cons]

theorem getLastD_append_right {α : Type} (A B : List α) (d : α) (h : B ≠ []) :
    (A ++ B).getLastD d = B.getLastD d := by
  induction A generalizing d with
  | nil => rfl
  | cons a A ih =>
    rw [List.cons_append, List.getLastD_cons, ih a]
    exact getLastD_of_ne_nil B a d h

/-- C9: the validation extension is the lowercased chunk after the last
`'.'`; without a dot the whole lowercased filename is the extension (so a
file literally named `png` passes validation); a name ending in `'.'` or an
empty name yields the empty extension, which is rejected as
`UnsupportedFormat`. -/
theorem C9_extension :
    (∀ s t : String, '.' ∉ t.data →
       getFileExtension (s ++ "." ++ t) = lowerStr t) ∧
    (∀ s : String, '.' ∉ s.data → getFileExtension s = lowerStr s) ∧
    validateFile { name := "png", type := "image/png", size := 0, bytes := [] } = .ok () ∧
    (∀ s : String, getFileExtension (s ++ ".") = "") ∧
    (∀ file : FileData, file.size ≤ MAX_FILE_SIZE →
       getFileExtension file.name = "" →
       validateFile file = .error .unsupportedFormat) := by
  refine ⟨?_, ?_, rfl, ?_, ?_⟩
  · intro s t ht
    unfold getFileExtension
    have hd : (s ++ "." ++ t).data = s.data ++ '.' :: t.data := by
      simp [String.data_append]
    rw [hd, splitOnChar_append,
      getLastD_append_right _ _ _ (splitOnChar_ne_nil _ _),
      splitOnChar_of_not_mem _ _ ht]
    cases t
    rfl
  · intro s hs
    unfold getFileExtension
    rw [splitOnChar_of_not_mem _ _ hs]
    cases s
    rfl
  · intro s
    unfold getFileExtension
    have hd : (s ++ ".").data = s.data ++ '.' :: ([] : List Char) := by
      simp [String.data_append]
    rw [hd, splitOnChar_append,
      getLastD_append_right _ _ _ (splitOnChar_ne_nil _ _)]
    rfl
  · intro file h1 h2
    have he : lowerStr (getFileExtension file.name) ∉ SUPPORTED_FORMATS := by
      rw [lowerStr_getFileExtension, h2]
      decide
    unfold validateFile
    rw [if_neg (by omega), if_pos he]

/-- C9 witness: `archive.PnG`, a dotless `png`, a name ending in a dot. -/
theorem C9_witness :
    getFileExtension ("archive" ++ "." ++ "PnG") = lowerStr "PnG" ∧
    getFileExtension "png" = lowerStr "png" ∧
    validateFile { name := "png", type := "image/png", size := 0, bytes := [] } = .ok () ∧
    getFileExtension ("foo" ++ ".") = "" ∧
    validateFile { name := "foo.", type := "image/png", size := 0, bytes := [] } =
      .error .unsupportedFormat :=
  ⟨C9_extension.1 "archive" "PnG" (by decide),
   C9_extension.2.1 "png" (by decide),
   C9_extension.2.2.1,
   C9_extension.2.2.2.1 "foo",
   C9_extension.2.2.2.2 _ (by decide) (by decide)⟩

/- ---------------------------------------------------------------------
Evaluation and inversion of the pipeline.
--------------------------------------------------------------------- -/

theorem processImageFile_eval (meta : Buf → Except Unit Raster)
    (file : FileData) (options : UploadOptions) (r m' : Raster)
    (hr : meta (.raw file.bytes) = .ok r)
    (hm : meta (thumbBufOf r) = .ok m') :
    processImageFile meta file options =
      (.ok (pOf r m' options), [.decodeAttempt, .decodeAttempt, .decodeAttempt]) := by
  simp only [processImageFile, createThumbnail, hr, hm, pOf]

theorem processImageFile_ok_inv (meta : Buf → Except Unit Raster)
    (file : FileData) (options : UploadOptions) (p : ProcessedImage)
    (h : (processImageFile meta file options).1 = .ok p) :
    ∃ r m', meta (.raw file.bytes) = .ok r ∧ meta (thumbBufOf r) = .ok m' ∧
      p = pOf r m' options ∧
      (processImageFile meta file options).2 =
        [.decodeAttempt, .decodeAttempt, .decodeAttempt] := by
  cases hr : meta (.raw file.bytes) with
  | error e =>
    exfalso
    simp only [processImageFile, hr] at h
    cases h
  | ok r =>
    cases hm : meta (thumbBufOf r) with
    | error e =>
      exfalso
      simp only [processImageFile, createThumbnail, hr, hm] at h
      cases h
    | ok m' =>
      have he := processImageFile_eval meta file options r m' hr hm
      rw [he] at h
      exact ⟨r, m', rfl, hm, (Except.ok.inj h).symm, by rw [he]⟩

theorem processImage_eval_ok (meta : Buf → Except Unit Raster)
    (store : String → Buf → String → Except Unit String)
    (fileId : String) (nowMs : Nat) (nowIso : String) (file : FileData)
    (options : UploadOptions) (r m' : Raster) (u1 u2 : String)
    (hval : validateFile file = .ok ())
    (hr : meta (.raw file.bytes) = .ok r)
    (hm : meta (thumbBufOf r) = .ok m')
    (h1 : store (fileId ++ "." ++ getFileExtension file.name)
        (primaryBuf r options) file.type = .ok u1)
    (h2 : store (fileId ++ "_thumb.webp") (thumbBufOf r) "image/webp" = .ok u2) :
    processImage meta store fileId nowMs nowIso file options =
      (.ok (mkImage fileId nowMs nowIso file options
              (fileId ++ "." ++ getFileExtension file.name) u1 (some u2)
              (pOf r m' options)
              (extractMetadata meta (primaryBuf r options) file).1,
            some (mkThumb fileId nowIso file options (fileId ++ "_thumb.webp")
              u2 (thumbBufOf r) (pOf r m' options))),
       [.validated, .decodeAttempt, .decodeAttempt, .decodeAttempt,
        .publish (fileId ++ "." ++ getFileExtension file.name)
          (primaryBuf r options) file.type,
        .publish (fileId ++ "_thumb.webp") (thumbBufOf r) "image/webp"] ++
        (extractMetadata meta (primaryBuf r options) file).2) := by
  have he := processImageFile_eval meta file options r m' hr hm
  unfold processImage uploadToBlob
  rw [hval, he]
  dsimp only [pOf]
  rw [h1, h2]
  simp [pOf]

theorem processImage_eval_thumbFail (meta : Buf → Except Unit Raster)
    (store : String → Buf → String → Except Unit String)
    (fileId : String) (nowMs : Nat) (nowIso : String) (file : FileData)
    (options : UploadOptions) (r m' : Raster) (u1 : String)
    (hval : validateFile file = .ok ())
    (hr : meta (.raw file.bytes) = .ok r)
    (hm : meta (thumbBufOf r) = .ok m')
    (h1 : store (fileId ++ "." ++ getFileExtension file.name)
        (primaryBuf r options) file.type = .ok u1)
    (h2 : store (fileId ++ "_thumb.webp") (thumbBufOf r) "image/webp" = .error ()) :
    processImage meta store fileId nowMs nowIso file options =
      (.error .publishError,
       [.validated, .decodeAttempt, .decodeAttempt, .decodeAttempt,
        .publish (fileId ++ "." ++ getFileExtension file.name)
          (primaryBuf r options) file.type,
        .publish (fileId ++ "_thumb.webp") (thumbBufOf r) "image/webp"]) := by
  have he := processImageFile_eval meta file options r m' hr hm
  unfold processImage uploadToBlob
  rw [hval, he]
  dsimp only [pOf]
  rw [h1, h2]
  simp

theorem processImage_ok_inv (meta : Buf → Except Unit Raster)
    (store : String → Buf → String → Except Unit String)
    (fileId : String) (nowMs : Nat) (nowIso : String) (file : FileData)
    (options : UploadOptions) (im : ImageRec) (th : Option ImageRec)
    (h : (processImage meta store fileId nowMs nowIso file options).1 = .ok (im, th)) :
    ∃ r m' u1 u2,
      validateFile file = .ok () ∧
      meta (.raw file.bytes) = .ok r ∧
      meta (thumbBufOf r) = .ok m' ∧
      store (fileId ++ "." ++ getFileExtension file.name)
        (primaryBuf r options) file.type = .ok u1 ∧
      store (fileId ++ "_thumb.webp") (thumbBufOf r) "image/webp" = .ok u2 ∧
      im = mkImage fileId nowMs nowIso file options
        (fileId ++ "." ++ getFileExtension file.name) u1 (some u2)
        (pOf r m' options) (extractMetadata meta (primaryBuf r options) file).1 ∧
      th = some (mkThumb fileId nowIso file options (fileId ++ "_thumb.webp")
        u2 (thumbBufOf r) (pOf r m' options)) ∧
      (processImage meta store fileId nowMs nowIso file options).2 =
        [.validated, .decodeAttempt, .decodeAttempt, .decodeAttempt,
         .publish (fileId ++ "." ++ getFileExtension file.name)
           (primaryBuf r options) file.type,
         .publish (fileId ++ "_thumb.webp") (thumbBufOf r) "image/webp"] ++
        (extractMetadata meta (primaryBuf r options) file).2 := by
  cases hval : validateFile file with
  | error e =>
    exfalso
    unfold processImage at h
    rw [hval] at h
    cases h
  | ok u =>
    cases u
    cases hpe : (processImageFile meta file options).1 with
    | error e =>
      exfalso
      rcases hq : processImageFile meta file options with ⟨pe, tr⟩
      rw [hq] at hpe
      dsimp only at hpe
      subst hpe
      unfold processImage at h
      rw [hval, hq] at h
      cases h
    | ok p =>
      obtain ⟨r, m', hr, hm, hp, htr⟩ :=
        processImageFile_ok_inv meta file options p hpe
      subst hp
      cases h1 : store (fileId ++ "." ++ getFileExtension file.name)
          (primaryBuf r options) file.type with
      | error e =>
        exfalso
        rcases hq : processImageFile meta file options with ⟨pe, tr⟩
        rw [hq] at hpe
        dsimp only at hpe
        subst hpe
        unfold processImage uploadToBlob at h
        rw [hval, hq] at h
        dsimp only [pOf] at h
        rw [h1] at h
        cases h
      | ok u1 =>
        cases h2 : store (fileId ++ "_thumb.webp") (thumbBufOf r) "image/webp" with
        | error e =>
          exfalso
          have hf := processImage_eval_thumbFail meta store fileId nowMs nowIso
            file options r m' u1 hval hr hm h1 (by cases e; exact h2)
          rw [hf] at h
          cases h
        | ok u2 =>
          have he := processImage_eval_ok meta store fileId nowMs nowIso
            file options r m' u1 u2 hval hr hm h1 h2
          rw [he] at h
          dsimp only at h
          have him := Except.ok.inj h
          refine ⟨r, m', u1, u2, rfl, hr, hm, h1, h2, ?_, ?_, by rw [he]⟩
          · exact congrArg Prod.fst him.symm
          · exact congrArg Prod.snd him.symm

theorem extractMetadata_trace (meta : Buf → Except Unit Raster)
    (buffer : Buf) (file : FileData) :
    (extractMetadata meta buffer file).2 = [.decodeAttempt] ∨
    (extractMetadata meta buffer file).2 = [.decodeAttempt, .decodeAttempt] := by
  unfold extractMetadata
  cases h : meta buffer
  · exact Or.inl rfl
  · exact Or.inr rfl

theorem primaryBuf_ne_raw (r : Raster) (options : UploadOptions) (b : List Nat) :
    primaryBuf r options ≠ .raw b := by
  unfold primaryBuf
  split <;> simp

/- ---------------------------------------------------------------------
Claim C1.
--------------------------------------------------------------------- -/

/-- C1 counterexample: with `max_width = 100` on a 1000×500 original, the
assembled record's `width` is 1000 while the published primary artifact's
raster is 100 pixels wide — the record reflects the original, not the
primary derived artifact. -/
theorem C1_counterexample :
    (c1run.1.toOption.map fun p => p.1.width) = some 1000 ∧
    ((publishes c1run.2).head?.map fun x => bufWidth? x.2.1) = some (some 100) ∧
    (1000 : Nat) ≠ 100 :=
  ⟨rfl, rfl, by decide⟩

/-- C1 (amended): for every successful pipeline run, the assembled record's
`width`/`height` are the dimensions reported when decoding the original
upload (before any resize), and its byte-size field is the original
upload's size — these agree with the primary artifact only when the
transform does not change them, and they never describe the thumbnail. -/
theorem C1_amended (meta : Buf → Except Unit Raster)
    (store : String → Buf → String → Except Unit String)
    (fileId : String) (nowMs : Nat) (nowIso : String) (file : FileData)
    (options : UploadOptions) (r : Raster) (im : ImageRec) (th : Option ImageRec)
    (hr : meta (.raw file.bytes) = .ok r)
    (h : (processImage meta store fileId nowMs nowIso file options).1 = .ok (im, th)) :
    im.width = r.width ∧ im.height = r.height ∧ im.size = file.size := by
  obtain ⟨r', m', u1, u2, _, hr', hm, h1, h2, him, hth, htr⟩ :=
    processImage_ok_inv meta store fileId nowMs nowIso file options im th h
  rw [hr] at hr'
  obtain rfl := Except.ok.inj hr'
  subst him
  exact ⟨rfl, rfl, rfl⟩

/-- C1 witness: the unresized run `wRun` on the 1000×500 original. -/
theorem C1_witness :
    (okFst wRun).width = wRaster.width ∧ (okFst wRun).height = wRaster.height ∧
    (okFst wRun).size = wFile.size :=
  C1_amended wMeta wStore "fid" 0 "t0" wFile {} wRaster (okFst wRun) (okSnd wRun)
    rfl rfl

/- ---------------------------------------------------------------------
Claim C4.
--------------------------------------------------------------------- -/

/-- C4: in every successful run, whatever the options, the published
thumbnail artifact is the WebP encoding, at quality 80, of the 300×300
center-anchored cover crop of the original (untransformed) raster `r`. -/
theorem C4_thumbnail (meta : Buf → Except Unit Raster)
    (store : String → Buf → String → Except Unit String)
    (fileId : String) (nowMs : Nat) (nowIso : String) (file : FileData)
    (options : UploadOptions) (r : Raster) (im : ImageRec) (th : Option ImageRec)
    (hr : meta (.raw file.bytes) = .ok r)
    (h : (processImage meta store fileId nowMs nowIso file options).1 = .ok (im, th)) :
    publishes (processImage meta store fileId nowMs nowIso file options).2 =
      [(fileId ++ "." ++ getFileExtension file.name, primaryBuf r options, file.type),
       (fileId ++ "_thumb.webp", thumbBufOf r, "image/webp")] ∧
    thumbBufOf r = Buf.webp (coverCrop r 300 300) 80 ∧
    (coverCrop r 300 300).width = 300 ∧ (coverCrop r 300 300).height = 300 := by
  obtain ⟨r', m', u1, u2, _, hr', hm, h1, h2, him, hth, htr⟩ :=
    processImage_ok_inv meta store fileId nowMs nowIso file options im th h
  rw [hr] at hr'
  obtain rfl := Except.ok.inj hr'
  refine ⟨?_, rfl, rfl, rfl⟩
  rcases extractMetadata_trace meta (primaryBuf r options) file with hq | hq <;>
    rw [htr, hq] <;> rfl

/-- C4 witness: the run `wRun` with default options. -/
theorem C4_witness :
    publishes wRun.2 =
      [("fid" ++ "." ++ getFileExtension wFile.name, primaryBuf wRaster {}, wFile.type),
       ("fid" ++ "_thumb.webp", thumbBufOf wRaster, "image/webp")] ∧
    thumbBufOf wRaster = Buf.webp (coverCrop wRaster 300 300) 80 ∧
    (coverCrop wRaster 300 300).width = 300 ∧ (coverCrop wRaster 300 300).height = 300 :=
  C4_thumbnail wMeta wStore "fid" 0 "t0" wFile {} wRaster (okFst wRun) (okSnd wRun)
    rfl rfl

/- ---------------------------------------------------------------------
Claim C5.
--------------------------------------------------------------------- -/

/-- C5: if validation, processing and the primary publish succeed but the
thumbnail publish fails, the invocation fails with `PublishError` (so no
record is assembled); and every successful result carries both artifact
locations — the record's `thumbnail_url` is present and the thumbnail
record exists. -/
theorem C5_publish_atomic :
    (∀ (meta : Buf → Except Unit Raster)
       (store : String → Buf → String → Except Unit String)
       (fileId : String) (nowMs : Nat) (nowIso : String) (file : FileData)
       (options : UploadOptions) (r m' : Raster) (u1 : String),
       validateFile file = .ok () →
       meta (.raw file.bytes) = .ok r →
       meta (thumbBufOf r) = .ok m' →
       store (fileId ++ "." ++ getFileExtension file.name)
         (primaryBuf r options) file.type = .ok u1 →
       store (fileId ++ "_thumb.webp") (thumbBufOf r) "image/webp" = .error () →
       (processImage meta store fileId nowMs nowIso file options).1 =
         .error .publishError) ∧
    (∀ (meta : Buf → Except Unit Raster)
       (store : String → Buf → String → Except Unit String)
       (fileId : String) (nowMs : Nat) (nowIso : String) (file : FileData)
       (options : UploadOptions) (im : ImageRec) (th : Option ImageRec),
       (processImage meta store fileId nowMs nowIso file options).1 = .ok (im, th) →
       im.thumbnail_url.isSome = true ∧ th.isSome = true) := by
  constructor
  · intro meta store fileId nowMs nowIso file options r m' u1 hval hr hm h1 h2
    have hf := processImage_eval_thumbFail meta store fileId nowMs nowIso
      file options r m' u1 hval hr hm h1 h2
    rw [hf]
  · intro meta store fileId nowMs nowIso file options im th h
    obtain ⟨r, m', u1, u2, _, hr, hm, h1, h2, him, hth, htr⟩ :=
      processImage_ok_inv meta store fileId nowMs nowIso file options im th h
    subst him
    subst hth
    exact ⟨rfl, rfl⟩

/-- C5 witness: the store `wStoreThumbFail` fails exactly on the thumbnail
filename; the run fails with `PublishError`, while the fault-free run has
both locations. -/
theorem C5_witness :
    (processImage wMeta wStoreThumbFail "fid" 0 "t0" wFile {}).1 =
      .error .publishError ∧
    (okFst wRun).thumbnail_url.isSome = true ∧ (okSnd wRun).isSome = true :=
  ⟨C5_publish_atomic.1 wMeta wStoreThumbFail "fid" 0 "t0" wFile {}
     wRaster (coverCrop wRaster 300 300) ("https://blob/" ++ ("fid" ++ "." ++ "png"))
     rfl rfl rfl rfl rfl,
   (C5_publish_atomic.2 wMeta wStore "fid" 0 "t0" wFile {}
     (okFst wRun) (okSnd wRun) rfl).1,
   (C5_publish_atomic.2 wMeta wStore "fid" 0 "t0" wFile {}
     (okFst wRun) (okSnd wRun) rfl).2⟩

/- ---------------------------------------------------------------------
Claim C10.
--------------------------------------------------------------------- -/

/-- C10: when `convert_to_webp` is not `false` (including the default), the
primary artifact is WebP-encoded yet is published under the caller's
declared MIME type with a filename carrying the original (lowercased)
extension, the record's `mime_type` is the declared type, and the thumbnail
alone is named `…_thumb.webp` and published as `image/webp`. -/
theorem C10_mime (meta : Buf → Except Unit Raster)
    (store : String → Buf → String → Except Unit String)
    (fileId : String) (nowMs : Nat) (nowIso : String) (file : FileData)
    (options : UploadOptions) (r : Raster) (im : ImageRec) (th : Option ImageRec)
    (hr : meta (.raw file.bytes) = .ok r)
    (hcw : options.convert_to_webp ≠ some false)
    (h : (processImage meta store fileId nowMs nowIso file options).1 = .ok (im, th)) :
    publishes (processImage meta store fileId nowMs nowIso file options).2 =
      [(fileId ++ "." ++ getFileExtension file.name,
        Buf.webp (resizedOf r options) (getQualityLevel options.quality), file.type),
       (fileId ++ "_thumb.webp", thumbBufOf r, "image/webp")] ∧
    im.mime_type = file.type ∧
    im.filename = fileId ++ "." ++ getFileExtension file.name := by
  obtain ⟨r', m', u1, u2, _, hr', hm, h1, h2, him, hth, htr⟩ :=
    processImage_ok_inv meta store fileId nowMs nowIso file options im th h
  rw [hr] at hr'
  obtain rfl := Except.ok.inj hr'
  have hpb : primaryBuf r options =
      Buf.webp (resizedOf r options) (getQualityLevel options.quality) := by
    unfold primaryBuf
    rw [if_pos hcw]
  subst him
  refine ⟨?_, rfl, rfl⟩
  rw [htr, hpb]
  rcases extractMetadata_trace meta
      (Buf.webp (resizedOf r options) (getQualityLevel options.quality)) file with
    hq | hq <;> rw [hq] <;> rfl

/-- C10 witness: the default-option run `wRun` on an `image/png` upload. -/
theorem C10_witness :
    publishes wRun.2 =
      [("fid" ++ "." ++ getFileExtension wFile.name,
        Buf.webp (resizedOf wRaster {}) (getQualityLevel (UploadOptions.quality {})),
        wFile.type),
       ("fid" ++ "_thumb.webp", thumbBufOf wRaster, "image/webp")] ∧
    (okFst wRun).mime_type = wFile.type ∧
    (okFst wRun).filename = "fid" ++ "." ++ getFileExtension wFile.name :=
  C10_mime wMeta wStore "fid" 0 "t0" wFile {} wRaster (okFst wRun) (okSnd wRun)
    rfl (by decide) rfl

/- ---------------------------------------------------------------------
Claim C7.
--------------------------------------------------------------------- -/

/-- C7: take a successful run and inject a fault into the codec oracle
exactly at the processed (primary) buffer — the only buffer metadata
extraction reads.  The pipeline still succeeds, with the identical records
except that the primary record's metadata degrades to the empty bag. -/
theorem C7_metadata_degrade (meta meta' : Buf → Except Unit Raster)
    (store : String → Buf → String → Except Unit String)
    (fileId : String) (nowMs : Nat) (nowIso : String) (file : FileData)
    (options : UploadOptions) (r : Raster) (im : ImageRec) (th : Option ImageRec)
    (hr : meta (.raw file.bytes) = .ok r)
    (h : (processImage meta store fileId nowMs nowIso file options).1 = .ok (im, th))
    (hne : thumbBufOf r ≠ primaryBuf r options)
    (hm' : ∀ b, meta' b = if b = primaryBuf r options then .error () else meta b) :
    (processImage meta' store fileId nowMs nowIso file options).1 =
      .ok ({ im with metadata := {} }, th) := by
  obtain ⟨r', m', u1, u2, hval, hr', hm, h1, h2, him, hth, htr⟩ :=
    processImage_ok_inv meta store fileId nowMs nowIso file options im th h
  rw [hr] at hr'
  obtain rfl := Except.ok.inj hr'
  have hraw : meta' (.raw file.bytes) = .ok r := by
    rw [hm' _, if_neg (Ne.symm (primaryBuf_ne_raw r options file.bytes))]
    exact hr
  have hthm : meta' (thumbBufOf r) = .ok m' := by
    rw [hm' _, if_neg hne]
    exact hm
  have hmd : extractMetadata meta' (primaryBuf r options) file =
      ({}, [.decodeAttempt]) := by
    unfold extractMetadata
    rw [hm' _, if_pos rfl]
  have he' := processImage_eval_ok meta' store fileId nowMs nowIso file options
    r m' u1 u2 hval hraw hthm h1 h2
  rw [he']
  subst him
  subst hth
  rw [hmd]
  rfl

/-- C7 witness: the fault-injected oracle `c7meta` fails exactly on the
primary buffer of the `quality = 20` run; the result matches the fault-free
run with an emptied metadata bag. -/
theorem C7_witness :
    (processImage c7meta wStore "fid" 0 "t0" wFile c7opts).1 =
      .ok ({ okFst c7run with metadata := {} }, okSnd c7run) :=
  C7_metadata_degrade wMeta c7meta wStore "fid" 0 "t0" wFile c7opts wRaster
    (okFst c7run) (okSnd c7run) rfl rfl
    (by
      unfold primaryBuf
      rw [if_pos (by decide)]
      intro hcontra
      exact absurd (Buf.webp.inj hcontra).2 (by decide))
    (fun b => rfl)

/- ---------------------------------------------------------------------
Claim C6: the color palette.
--------------------------------------------------------------------- -/

theorem colorsFold_eq (data : List Nat) (l : List Nat) (m : List (String × Nat)) :
    l.foldl (fun m i =>
      if data.getD (i + 3) 0 < 128 then m
      else bump m (toHexColor (data.getD i 0) (data.getD (i + 1) 0) (data.getD (i + 2) 0))) m
    = (l.filterMap fun i =>
        if data.getD (i + 3) 0 < 128 then none
        else some (toHexColor (data.getD i 0) (data.getD (i + 1) 0)
          (data.getD (i + 2) 0))).foldl bump m := by
  induction l generalizing m with
  | nil => rfl
  | cons i l ih =>
    by_cases hc : data.getD (i + 3) 0 < 128
    · simp only [List.foldl_cons, List.filterMap_cons, hc, if_pos, ite_true]
      exact ih m
    · simp only [List.foldl_cons, List.filterMap_cons, hc, ite_false]
      exact ih (bump m _)

theorem extractColorPalette_eq (data : List Nat) (w h : Nat) :
    extractColorPalette data w h =
      ((stableSortDesc ((sampleColors data).foldl bump [])).take 10).map Prod.fst := by
  unfold extractColorPalette sampleColors
  rw [colorsFold_eq]

theorem keys_bump (m : List (String × Nat)) (c : String) :
    (bump m c).map Prod.fst =
      if c ∈ m.map Prod.fst then m.map Prod.fst else m.map Prod.fst ++ [c] := by
  induction m with
  | nil => simp [bump]
  | cons kv t ih =>
    obtain ⟨k, v⟩ := kv
    by_cases hk : k = c
    · subst hk
      simp [bump]
    · simp only [bump, if_neg hk, List.map_cons, List.mem_cons, ih]
      by_cases hc : c ∈ t.map Prod.fst
      · rw [if_pos hc, if_pos (Or.inr hc)]
      · rw [if_neg hc, if_neg (by
          intro hor
          rcases hor with h1 | h2
          · exact hk h1.symm
          · exact hc h2)]
        simp

theorem lkp_bump (m : List (String × Nat)) (c x : String) :
    lkp (bump m c) x = lkp m x + (if c = x then 1 else 0) := by
  induction m with
  | nil => simp [bump, lkp]
  | cons kv t ih =>
    obtain ⟨k, v⟩ := kv
    by_cases hk : k = c
    · subst hk
      simp only [bump, if_pos rfl, lkp]
      by_cases hx : k = x
      · rw [if_pos hx, if_pos hx, if_pos hx]
      · rw [if_neg hx, if_neg hx, if_neg hx]
        omega
    · simp only [bump, if_neg hk, lkp]
      by_cases hx : k = x
      · rw [if_pos hx, if_pos hx, if_neg (by rw [← hx]; exact fun hcx => hk hcx.symm)]
        omega
      · rw [if_neg hx, if_neg hx]
        exact ih

theorem lkp_foldl_bump (cs : List String) (m : List (String × Nat)) (x : String) :
    lkp (cs.foldl bump m) x = lkp m x + occ x cs := by
  induction cs generalizing m with
  | nil => simp [occ]
  | cons c cs ih =>
    rw [List.foldl_cons, ih, lkp_bump]
    show lkp m x + (if c = x then 1 else 0) + occ x cs =
      lkp m x + ((if c = x then 1 else 0) + occ x cs)
    omega

theorem firstIdx_append_lt (a : String) (seen z : List String) (h : a ∈ seen) :
    firstIdx a (seen ++ z) < seen.length := by
  induction seen with
  | nil => cases h
  | cons s seen ih =>
    rw [List.cons_append]
    unfold firstIdx
    by_cases hs : s = a
    · rw [if_pos hs]
      simp
    · rw [if_neg hs]
      have ha : a ∈ seen := by
        rcases List.mem_cons.mp h with h1 | h2
        · exact absurd h1.symm hs
        · exact h2
      have := ih ha
      simp only [List.length_cons]
      omega

theorem le_firstIdx_append (a : String) (seen z : List String) (h : a ∉ seen) :
    seen.length ≤ firstIdx a (seen ++ z) := by
  induction seen with
  | nil => simp
  | cons s seen ih =>
    rw [List.cons_append]
    unfold firstIdx
    have hs : ¬ s = a := fun hsa => h (hsa ▸ List.mem_cons_self s seen)
    rw [if_neg hs]
    have ha : a ∉ seen := fun hm => h (List.mem_cons_of_mem _ hm)
    have := ih ha
    simp only [List.length_cons]
    omega

theorem keys_foldl_bump_spec (vis : List String) :
    ∀ (rest seen : List String) (m : List (String × Nat)),
      vis = seen ++ rest →
      (∀ x, x ∈ m.map Prod.fst ↔ x ∈ seen) →
      (m.map Prod.fst).Pairwise (fun a b => firstIdx a vis < firstIdx b vis) →
      (∀ x, x ∈ (rest.foldl bump m).map Prod.fst ↔ x ∈ seen ++ rest) ∧
      ((rest.foldl bump m).map Prod.fst).Pairwise
        (fun a b => firstIdx a vis < firstIdx b vis) := by
  intro rest
  induction rest with
  | nil =>
    intro seen m hv hmem hpw
    rw [List.foldl_nil]
    refine ⟨fun x => ?_, hpw⟩
    rw [List.append_nil]
    exact hmem x
  | cons c rest ih =>
    intro seen m hv hmem hpw
    rw [List.foldl_cons]
    have hkeys := keys_bump m c
    have happ : vis = (seen ++ [c]) ++ rest := by
      rw [hv]
      simp
    have hfix : ∀ x, (x ∈ seen ++ [c] ++ rest) = (x ∈ seen ++ c :: rest) := by
      intro x
      simp
    by_cases hc : c ∈ m.map Prod.fst
    · rw [if_pos hc] at hkeys
      have hcseen : c ∈ seen := (hmem c).mp hc
      have hmem' : ∀ x, x ∈ (bump m c).map Prod.fst ↔ x ∈ seen ++ [c] := by
        intro x
        rw [hkeys, hmem]
        constructor
        · exact fun hx => List.mem_append_left _ hx
        · intro hx
          rcases List.mem_append.mp hx with h1 | h2
          · exact h1
          · rw [List.mem_singleton.mp h2]
            exact hcseen
      have hpw' : ((bump m c).map Prod.fst).Pairwise
          (fun a b => firstIdx a vis < firstIdx b vis) := by
        rw [hkeys]
        exact hpw
      obtain ⟨hm1, hm2⟩ := ih (seen ++ [c]) (bump m c) happ hmem' hpw'
      exact ⟨fun x => (hfix x) ▸ hm1 x, hm2⟩
    · rw [if_neg hc] at hkeys
      have hcseen : c ∉ seen := fun hcs => hc ((hmem c).mpr hcs)
      have hmem' : ∀ x, x ∈ (bump m c).map Prod.fst ↔ x ∈ seen ++ [c] := by
        intro x
        rw [hkeys]
        simp only [List.mem_append, List.mem_singleton, hmem]
      have hpw' : ((bump m c).map Prod.fst).Pairwise
          (fun a b => firstIdx a vis < firstIdx b vis) := by
        rw [hkeys]
        rw [List.pairwise_append]
        refine ⟨hpw, by simp, ?_⟩
        intro a ha b hb
        rw [List.mem_singleton.mp hb]
        have h1 : firstIdx a vis < seen.length := by
          rw [hv]
          exact firstIdx_append_lt a seen (c :: rest) ((hmem a).mp ha)
        have h2 : seen.length ≤ firstIdx c vis := by
          rw [hv]
          exact le_firstIdx_append c seen (c :: rest) hcseen
        omega
      obtain ⟨hm1, hm2⟩ := ih (seen ++ [c]) (bump m c) happ hmem' hpw'
      exact ⟨fun x => (hfix x) ▸ hm1 x, hm2⟩

theorem lkp_of_mem (m : List (String × Nat)) (k : String) (v : Nat)
    (hnd : (m.map Prod.fst).Nodup) (h : (k, v) ∈ m) : lkp m k = v := by
  induction m with
  | nil => cases h
  | cons kv t ih =>
    obtain ⟨k', v'⟩ := kv
    rw [List.map_cons, List.nodup_cons] at hnd
    rcases List.mem_cons.mp h with h1 | h2
    · obtain ⟨hk, hv⟩ := Prod.mk.injEq .. ▸ h1
      unfold lkp
      rw [if_pos (by rw [hk])]
      exact hv.symm
    · have hk : ¬ k' = k := by
        intro hkk
        exact hnd.1 (hkk ▸ (List.mem_map.mpr ⟨(k, v), h2, rfl⟩))
      unfold lkp
      rw [if_neg hk]
      exact ih hnd.2 h2

theorem insDesc_spec (vis : List String) (x : String × Nat)
    (l : List (String × Nat)) (hl : l.Pairwise (pairRel vis))
    (hx : ∀ y ∈ l, firstIdx y.1 vis < firstIdx x.1 vis) :
    (insDesc x l).Pairwise (pairRel vis) ∧ ∀ z ∈ insDesc x l, z = x ∨ z ∈ l := by
  induction l with
  | nil =>
    constructor
    · exact List.pairwise_singleton _ _
    · intro z hz
      exact Or.inl (List.mem_singleton.mp hz)
  | cons h t ih =>
    obtain ⟨hrel, ht⟩ := List.pairwise_cons.mp hl
    unfold insDesc
    by_cases hcmp : h.2 < x.2
    · rw [if_pos hcmp]
      constructor
      · refine List.Pairwise.cons ?_ hl
        intro z hz
        rcases List.mem_cons.mp hz with rfl | hzt
        · exact Or.inl hcmp
        · rcases hrel z hzt with h1 | h2
          · exact Or.inl (by omega)
          · exact Or.inl (by omega)
      · intro z hz
        exact List.mem_cons.mp hz |>.imp_right id |>.imp_left (by
          intro hzx
          rw [hzx])
    · rw [if_neg hcmp]
      have hx' : ∀ y ∈ t, firstIdx y.1 vis < firstIdx x.1 vis :=
        fun y hy => hx y (List.mem_cons_of_mem _ hy)
      obtain ⟨ihp, ihm⟩ := ih ht hx'
      constructor
      · refine List.Pairwise.cons ?_ ihp
        intro z hz
        rcases ihm z hz with rfl | hzt
        · rcases Nat.lt_or_ge z.2 h.2 with hlt | hge
          · exact Or.inl hlt
          · have heq : h.2 = z.2 := by omega
            exact Or.inr ⟨heq, hx h (List.mem_cons_self _ _)⟩
        · exact hrel z hzt
      · intro z hz
        rcases List.mem_cons.mp hz with rfl | hzi
        · exact Or.inr (List.mem_cons_self _ _)
        · rcases ihm z hzi with rfl | hzt
          · exact Or.inl rfl
          · exact Or.inr (List.mem_cons_of_mem _ hzt)

theorem stableSortDesc_spec (vis : List String) (l : List (String × Nat))
    (h : l.Pairwise (fun a b => firstIdx a.1 vis < firstIdx b.1 vis)) :
    (stableSortDesc l).Pairwise (pairRel vis) ∧
    ∀ z ∈ stableSortDesc l, z ∈ l := by
  suffices H : ∀ (l acc : List (String × Nat)),
      l.Pairwise (fun a b => firstIdx a.1 vis < firstIdx b.1 vis) →
      acc.Pairwise (pairRel vis) →
      (∀ y ∈ acc, ∀ x ∈ l, firstIdx y.1 vis < firstIdx x.1 vis) →
      (l.foldl (fun acc x => insDesc x acc) acc).Pairwise (pairRel vis) ∧
      (∀ z ∈ l.foldl (fun acc x => insDesc x acc) acc, z ∈ acc ∨ z ∈ l) by
    obtain ⟨h1, h2⟩ := H l [] h .nil (by simp)
    refine ⟨h1, fun z hz => ?_⟩
    rcases h2 z hz with h3 | h3
    · cases h3
    · exact h3
  intro l
  induction l with
  | nil =>
    intro acc hpl hacc hord
    exact ⟨hacc, fun z hz => Or.inl hz⟩
  | cons x l ih =>
    intro acc hpl hacc hord
    rw [List.foldl_cons]
    obtain ⟨hxl, hl⟩ := List.pairwise_cons.mp hpl
    obtain ⟨hip, him⟩ := insDesc_spec vis x acc hacc
      (fun y hy => hord y hy x (List.mem_cons_self _ _))
    have hord' : ∀ y ∈ insDesc x acc, ∀ z ∈ l,
        firstIdx y.1 vis < firstIdx z.1 vis := by
      intro y hy z hz
      rcases him y hy with rfl | hyacc
      · exact hxl z hz
      · exact hord y hyacc z (List.mem_cons_of_mem _ hz)
    obtain ⟨h1, h2⟩ := ih (insDesc x acc) hl hip hord'
    refine ⟨h1, fun z hz => ?_⟩
    rcases h2 z hz with hz1 | hz2
    · rcases him z hz1 with rfl | hz3
      · exact Or.inr (List.mem_cons_self _ _)
      · exact Or.inl hz3
    · exact Or.inr (List.mem_cons_of_mem _ hz2)

theorem hexDigit_spec : ∀ k, k < 16 →
    ('0' ≤ hexDigit k ∧ hexDigit k ≤ '9') ∨ ('a' ≤ hexDigit k ∧ hexDigit k ≤ 'f') := by
  decide

theorem hexDigit_zero : '0' = hexDigit 0 := by decide

theorem toHexList_lt16 (n : Nat) (h : n < 16) : toHexList n = [hexDigit n] := by
  rw [toHexList]
  exact dif_pos h

theorem toHexList_big (n : Nat) (h16 : 16 ≤ n) (h : n < 256) :
    toHexList n = [hexDigit (n / 16), hexDigit (n % 16)] := by
  rw [toHexList]
  rw [dif_neg (by omega)]
  rw [toHexList_lt16 (n / 16) (by omega)]
  rfl

theorem pad2_toHexList (n : Nat) (h : n < 256) :
    ∃ d1 d2, d1 < 16 ∧ d2 < 16 ∧ pad2 (toHexList n) = [hexDigit d1, hexDigit d2] := by
  by_cases h16 : n < 16
  · refine ⟨0, n, by omega, h16, ?_⟩
    rw [toHexList_lt16 n h16]
    unfold pad2
    rw [← hexDigit_zero]
    rfl
  · refine ⟨n / 16, n % 16, by omega, by omega, ?_⟩
    rw [toHexList_big n (by omega) h]
    rfl

theorem hexColorSpec_toHexColor (r g b : Nat) (hr : r < 256) (hg : g < 256)
    (hb : b < 256) : hexColorSpec (toHexColor r g b) := by
  obtain ⟨r1, r2, hr1, hr2, hre⟩ := pad2_toHexList r hr
  obtain ⟨g1, g2, hg1, hg2, hge⟩ := pad2_toHexList g hg
  obtain ⟨b1, b2, hb1, hb2, hbe⟩ := pad2_toHexList b hb
  unfold toHexColor hexColorSpec
  rw [hre, hge, hbe]
  refine ⟨rfl, rfl, ?_⟩
  intro c hc
  simp only [List.cons_append, List.nil_append, List.drop_succ_cons, List.drop_zero,
    List.mem_cons, List.not_mem_nil, or_false] at hc
  rcases hc with rfl | rfl | rfl | rfl | rfl | rfl
  · exact hexDigit_spec r1 hr1
  · exact hexDigit_spec r2 hr2
  · exact hexDigit_spec g1 hg1
  · exact hexDigit_spec g2 hg2
  · exact hexDigit_spec b1 hb1
  · exact hexDigit_spec b2 hb2

theorem getD_lt_256 (data : List Nat) (hb : ∀ x ∈ data, x < 256) (i : Nat) :
    data.getD i 0 < 256 := by
  rcases Nat.lt_or_ge i data.length with h | h
  · rw [List.getD_eq_getElem data 0 h]
    exact hb _ (List.getElem_mem h)
  · rw [List.getD_eq_default data 0 h]
    omega

theorem mem_sampleColors_shape (data : List Nat) (c : String)
    (h : c ∈ sampleColors data) :
    ∃ i, ¬ data.getD (i + 3) 0 < 128 ∧
      c = toHexColor (data.getD i 0) (data.getD (i + 1) 0) (data.getD (i + 2) 0) := by
  obtain ⟨i, _, hi⟩ := List.mem_filterMap.mp h
  by_cases hc : data.getD (i + 3) 0 < 128
  · rw [if_pos hc] at hi
    cases hi
  · rw [if_neg hc] at hi
    exact ⟨i, hc, (Option.some.inj hi).symm⟩

/-- C6: for every sampled pixel buffer (bytes below 256), the extracted
color palette has at most 10 entries, each a `'#'`-prefixed six-hex-digit
string, every entry is the color of some sampled pixel with alpha ≥ 128
(pixels below the threshold are excluded), and entries are ordered by
non-increasing sample frequency with ties broken by first-encountered
order. -/
theorem C6_palette (data : List Nat) (width height : Nat)
    (hb : ∀ x ∈ data, x < 256) :
    (extractColorPalette data width height).length ≤ 10 ∧
    (∀ c ∈ extractColorPalette data width height, hexColorSpec c) ∧
    (∀ c ∈ extractColorPalette data width height, c ∈ sampleColors data) ∧
    (extractColorPalette data width height).Pairwise
      (paletteLE (sampleColors data)) := by
  have hpal := extractColorPalette_eq data width height
  obtain ⟨hmem, hpw⟩ := keys_foldl_bump_spec (sampleColors data)
    (sampleColors data) [] [] (by simp) (by simp) (by simp)
  have hpwPairs : ((sampleColors data).foldl bump []).Pairwise
      (fun a b => firstIdx a.1 (sampleColors data) < firstIdx b.1 (sampleColors data)) :=
    List.Pairwise.of_map Prod.fst (fun _ _ h => h) hpw
  have hnd : (((sampleColors data).foldl bump []).map Prod.fst).Nodup :=
    hpw.imp (by
      intro a b hab heq
      rw [heq] at hab
      exact absurd hab (lt_irrefl _))
  obtain ⟨hsp, hsm⟩ := stableSortDesc_spec (sampleColors data)
    ((sampleColors data).foldl bump []) hpwPairs
  have hmemPal : ∀ c ∈ extractColorPalette data width height,
      c ∈ sampleColors data := by
    intro c hc
    rw [hpal] at hc
    obtain ⟨z, hz, hzc⟩ := List.mem_map.mp hc
    have hzs : z ∈ stableSortDesc ((sampleColors data).foldl bump []) :=
      List.take_subset _ _ hz
    have hzM := hsm z hzs
    have : z.1 ∈ ((sampleColors data).foldl bump []).map Prod.fst :=
      List.mem_map.mpr ⟨z, hzM, rfl⟩
    rw [hzc] at this
    have := (hmem c).mp this
    simpa using this
  refine ⟨?_, ?_, hmemPal, ?_⟩
  · rw [hpal]
    simp only [List.length_map, List.length_take]
    omega
  · intro c hc
    obtain ⟨i, hi, hce⟩ := mem_sampleColors_shape data c (hmemPal c hc)
    rw [hce]
    exact hexColorSpec_toHexColor _ _ _ (getD_lt_256 data hb i)
      (getD_lt_256 data hb (i + 1)) (getD_lt_256 data hb (i + 2))
  · rw [hpal]
    rw [List.pairwise_map]
    have hcnt : ∀ z ∈ (stableSortDesc ((sampleColors data).foldl bump [])).take 10,
        z.2 = occ z.1 (sampleColors data) := by
      intro z hz
      have hzM := hsm z (List.take_subset _ _ hz)
      have hlk := lkp_of_mem _ z.1 z.2 hnd hzM
      rw [lkp_foldl_bump] at hlk
      unfold lkp at hlk
      omega
    have hsp10 : ((stableSortDesc ((sampleColors data).foldl bump [])).take 10).Pairwise
        (pairRel (sampleColors data)) :=
      hsp.sublist (List.take_sublist _ _)
    refine hsp10.imp_of_mem ?_
    intro a b ha hb'
    intro hab
    have hca := hcnt a ha
    have hcb := hcnt b hb'
    unfold pairRel at hab
    unfold paletteLE
    rw [← hca, ← hcb]
    exact hab

/-- C6 witness: a single opaque pixel `(17, 34, 51, 255)`. -/
theorem C6_witness :
    (extractColorPalette [17, 34, 51, 255] 2 1).length ≤ 10 ∧
    (∀ c ∈ extractColorPalette [17, 34, 51, 255] 2 1, hexColorSpec c) ∧
    (∀ c ∈ extractColorPalette [17, 34, 51, 255] 2 1,
      c ∈ sampleColors [17, 34, 51, 255]) ∧
    (extractColorPalette [17, 34, 51, 255] 2 1).Pairwise
      (paletteLE (sampleColors [17, 34, 51, 255])) :=
  C6_palette [17, 34, 51, 255] 2 1 (by decide)

end Imgshow
